import Mathlib

/-!
Shallow embedding of the OneDaijo sbc-demo-backend loan lifecycle engine
(`server/era.go`, `server/era_driver.go`, `server/kiva_era.go`,
`server/random_era.go` and the Prosper/Naive assessor files).

Go `float64` values are modelled as `ℚ` (all the arithmetic the claims
exercise is exact decimal arithmetic), Go `int64` timestamps as `ℤ`,
Go `uint64` counters as `ℕ`.  Fallible Go code returning `error` is
modelled with `Except`.  Each operation handler is modelled as a pure
function from the pre-state of the datastore to a result together with
the post-state of the datastore; a handler whose transaction function
returns an error leaves the datastore unchanged (datastore transactions
are all-or-nothing).
-/

/-- `BorrowerApp` from `server/era.go` lines 4-11. -/
structure BorrowerApp where
  borrower_id : String
  principal_amount : ℚ
  stated_monthly_income : ℚ
  employment_start_month : ℤ
  employment_start_year : ℤ
  employment_status : String
deriving DecidableEq

/-- `MAX_INTEREST_RATE` from `server/era.go` line 13. -/
def MAX_INTEREST_RATE : ℚ := 10/100

/-- `MAX_QIN_COLLATERAL` from `server/era.go` line 14. -/
def MAX_QIN_COLLATERAL : ℚ := 5/10

/-- `GRACE_NUM_LOANS` from `server/era.go` line 15. -/
def GRACE_NUM_LOANS : ℕ := 1

/-- `BorrowerInformation` from `server/era.go` lines 18-22. -/
structure BorrowerInformation where
  no_loans : ℕ
  successful_loans : ℕ
  earned_qin : ℚ
deriving DecidableEq

/-- `ERATerms` from `server/era.go` lines 25-31. -/
structure ERATerms where
  interest_rate : ℚ
  qin_collateral : ℚ
  qin_reward : ℚ
  interest_reward : ℚ
  offered_by : String
deriving DecidableEq

/-- The `ERA` interface from `server/era.go` lines 34-40; an assessor is a
record of its five capability functions. -/
structure ERA where
  predictProbDefault : BorrowerApp → ℚ
  predictInterestRate : ℚ → ℚ
  computeQinCollateral : ℚ → ℕ → ℚ
  computeQinReward : ℚ → ℚ → ℚ
  rejectBorrower : ℚ → Bool

/-- The probability clamp from `server/era.go` lines 53-59. -/
def clamp01 (p : ℚ) : ℚ :=
  if p < 0 then 0 else if p > 1 then 1 else p

/-- The interest-rate clamp from `server/era.go` lines 80-86. -/
def clampRate (r : ℚ) : ℚ :=
  if r < 0 then 0 else if r > MAX_INTEREST_RATE then MAX_INTEREST_RATE else r

/-- `processBorrowerApp` from `server/era.go` lines 48-102.  Returns `none`
when the assessor contributes no offer (Go returns a nil pointer). -/
def processBorrowerApp (era : ERA) (borrower_app : BorrowerApp)
    (borrower_information : BorrowerInformation) (loan_fraction : ℚ)
    (offered_by : String) : Option ERATerms :=
  let prob_default := clamp01 (era.predictProbDefault borrower_app)
  if era.rejectBorrower prob_default then none
  else
    let collateralOpt : Option ℚ :=
      if GRACE_NUM_LOANS ≤ borrower_information.no_loans then
        let c := era.computeQinCollateral prob_default borrower_information.successful_loans
        if borrower_information.earned_qin < c then none else some c
      else some 0
    match collateralOpt with
    | none => none
    | some qin_collateral =>
      let interest_rate := clampRate (era.predictInterestRate prob_default)
      let interest_reward := loan_fraction * interest_rate
      let qin_reward0 := era.computeQinReward prob_default interest_reward
      let qin_reward := if qin_reward0 < 0 then 0 else qin_reward0
      some ⟨interest_rate, qin_collateral, qin_reward, interest_reward, offered_by⟩

/-- `ERA_INTEREST_FRACTION` from `server/era_driver.go` line 36. -/
def ERA_INTEREST_FRACTION : ℚ := 2/100

/-- `processBorrowerRequest` from `server/era_driver.go` lines 66-83,
parameterised by the driver's ordered list of assessors paired with their
external display names. -/
def processBorrowerRequest (eras : List (ERA × String)) (borrower_app : BorrowerApp)
    (borrower_information : BorrowerInformation) : List (Option ERATerms) :=
  let loan_fraction := ERA_INTEREST_FRACTION * borrower_app.principal_amount
  eras.map (fun en => processBorrowerApp en.1 borrower_app borrower_information loan_fraction en.2)

/-- `KivaERA.computeQinCollateral` from `server/kiva_era.go` lines 31-35. -/
def KivaERA.computeQinCollateral (prob_default : ℚ) (num_successful_loans : ℕ) : ℚ :=
  prob_default * MAX_QIN_COLLATERAL * (1 / ((num_successful_loans : ℚ) + 1))

/-- `ProsperERA.computeQinCollateral` from the Prosper assessor file lines 39-43. -/
def ProsperERA.computeQinCollateral (prob_default : ℚ) (num_successful_loans : ℕ) : ℚ :=
  prob_default * MAX_QIN_COLLATERAL * (1 / ((num_successful_loans : ℚ) + 1))

/-- `NaiveERA.computeQinCollateral` from the Naive assessor file lines 14-18. -/
def NaiveERA.computeQinCollateral (prob_default : ℚ) (num_successful_loans : ℕ) : ℚ :=
  prob_default * MAX_QIN_COLLATERAL * (1 / ((num_successful_loans : ℚ) + 1))

/-- `RandomERA.computeQinCollateral` from `server/random_era.go` lines 17-21. -/
def RandomERA.computeQinCollateral (prob_default : ℚ) (num_successful_loans : ℕ) : ℚ :=
  prob_default * MAX_QIN_COLLATERAL * (1 / ((num_successful_loans : ℚ) + 1))

/-- Go `int(f)` truncation toward zero, on `ℚ`. -/
def ratTrunc (q : ℚ) : ℤ :=
  if q < 0 then ⌈q⌉ else ⌊q⌋

/-- `Round` from `server/era.go` lines 274-276:
`float64(int(f + math.Copysign(0.5, f)))`. -/
def Round (f : ℚ) : ℚ :=
  ((ratTrunc (f + (if f < 0 then -(1/2) else 1/2))) : ℚ)

/-- `LoanTerms` from `server/era.go` lines 195-202. -/
structure LoanTerms where
  termId : String
  interestRate : ℚ
  qinReward : ℚ
  qinRequired : ℚ
  amountOwed : ℚ
  offeredBy : String
deriving DecidableEq

/-- `Repayment` from `server/era.go` lines 208-211. -/
structure Repayment where
  amount : ℚ
  timestamp : ℤ
deriving DecidableEq

/-- `LoanRecord` from `server/era.go` lines 213-227 (the `Request` snapshot
is kept out of the model: it is only echoed back, never branched on). -/
structure LoanRecord where
  loanId : String
  amount : ℚ
  currencyCode : String
  dueDate : ℤ
  terms : List LoanTerms
  acceptedTerms : Option LoanTerms
  state : String
  location : Option String
  repayments : List Repayment
  memo : String
  repaidDate : ℤ
  dateCreated : ℤ
deriving DecidableEq

/-- `EmploymentInfo` fields consumed by the loan-request handler
(`server/era.go` lines 151-158, 813-831). -/
structure EmploymentInfo where
  employmentStatus : String
  employmentStartMonth : Option ℤ
  employmentStartYear : Option ℤ
  employmentIncome : Option ℚ
deriving DecidableEq

/-- The `User` entity (`server/era.go` lines 172-181) restricted to the
fields the loan operations read or write. -/
structure UserP where
  qinBalance : ℚ
  employmentInfo : Option EmploymentInfo
  hasResidenceInfo : Bool
deriving DecidableEq

/-- The datastore contents for one borrower: their `User` entity and their
`LoanHistory` entity (`server/era.go` lines 229-231). -/
structure ServerState where
  user : UserP
  loanHistory : List LoanRecord
deriving DecidableEq

/-- Error taxonomy of the handlers (`server/era.go` lines 134-149); Go
errors built on the fly with `errors.New` are carried as `internal`. -/
inductive Err where
  | badJsonPopulation
  | userNotRegistered
  | userDataNotFound
  | loanAlreadyExists
  | noActiveLoan
  | loanInWrongState
  | loanInDefault
  | invalidId
  | notEnoughQin
  | internal (msg : String)
deriving DecidableEq

/-- `IsLoanActive` from `server/era.go` lines 647-668. -/
def IsLoanActive (loanRecord : LoanRecord) : Except String Bool :=
  match loanRecord.state with
  | "PENDING" => .ok true
  | "APPROVED" => .ok true
  | "REJECTED" => .ok false
  | "ACCEPTED" => .ok true
  | "SENT" => .ok true
  | "REPAID" => .ok false
  | "DEFAULTED" => .ok false
  | "CANCELED" => .ok false
  | _ => .error "Invalid state value"

/-- `ActiveLoanForLoanHistory` from `server/era.go` lines 670-689, with the
returned pointer modelled as the index of the record together with its
value.  The accumulator holds the active record found so far. -/
def activeLoanAux : ℕ → Option (ℕ × LoanRecord) → List LoanRecord →
    Except String (Option (ℕ × LoanRecord))
  | _, acc, [] => .ok acc
  | i, acc, r :: rs =>
    match IsLoanActive r with
    | .error e => .error e
    | .ok true =>
      match acc with
      | some _ => .error "Found multiple active loans"
      | none => activeLoanAux (i + 1) (some (i, r)) rs
    | .ok false => activeLoanAux (i + 1) acc rs

/-- `ActiveLoanForLoanHistory` (`server/era.go` lines 670-689). -/
def ActiveLoanForLoanHistory (loanHistory : List LoanRecord) :
    Except String (Option (ℕ × LoanRecord)) :=
  activeLoanAux 0 none loanHistory

/-- `DefaultActiveLoanIfNecessary` from `server/era.go` lines 691-711.
`now_ms` is `time.Now().Unix() * 1000`.  Returns whether the history was
modified, together with the (possibly modified) history. -/
def DefaultActiveLoanIfNecessary (now_ms : ℤ) (loanHistory : List LoanRecord) :
    Except String (Bool × List LoanRecord) :=
  match ActiveLoanForLoanHistory loanHistory with
  | .error e => .error e
  | .ok none => .ok (false, loanHistory)
  | .ok (some (i, r)) =>
    if r.state = "SENT" then
      if r.dueDate = 0 then .error "Due date not set for SENT loan"
      else if r.dueDate < now_ms then
        .ok (true, loanHistory.set i { r with state := "DEFAULTED" })
      else .ok (false, loanHistory)
    else .ok (false, loanHistory)

/-- One iteration of the presentation loop in `LoanRequestFun`
(`server/era.go` lines 850-858): round an assessor's raw terms and attach
the deterministic term id. -/
def roundedTerm (loanId : String) (idx : ℕ) (amount : ℚ) (t : ERATerms) : LoanTerms :=
  let rate := Round (t.interest_rate * 10000) / 10000
  { termId := loanId ++ "-" ++ toString idx
    interestRate := rate
    qinReward := Round (t.qin_reward * 100) / 100
    qinRequired := Round (t.qin_collateral * 100) / 100
    amountOwed := Round ((1 + rate) * amount * 100) / 100
    offeredBy := t.offered_by }

/-- The loop of `LoanRequestFun` lines 845-861: walk the assessor responses
in order, skip the rejections (`nil`), and assign consecutive term indices
to the offers. -/
def assignTerms (loanId : String) (amount : ℚ) :
    List (Option ERATerms) → ℕ → List LoanTerms
  | [], _ => []
  | none :: rest, idx => assignTerms loanId amount rest idx
  | some t :: rest, idx => roundedTerm loanId idx amount t :: assignTerms loanId amount rest (idx + 1)

/-- The fallback offer synthesized by `LoanRequestFun` lines 863-874 when
no assessor contributed an offer. -/
def fallbackTerm (loanId : String) (amount : ℚ) : LoanTerms :=
  { termId := loanId ++ "-0"
    interestRate := 5/100
    qinReward := 1/10
    qinRequired := 0
    amountOwed := Round ((1 + 5/100) * amount * 100) / 100
    offeredBy := "OneDaijo" }

/-- Term construction of `LoanRequestFun` lines 840-874: assessor offers
when there is at least one (`num_not_nil > 0`), else the single fallback. -/
def buildTerms (loanId : String) (amount : ℚ) (responses : List (Option ERATerms)) :
    List LoanTerms :=
  if 0 < responses.countP (fun r => r.isSome) then assignTerms loanId amount responses 0
  else [fallbackTerm loanId amount]

/-- The JSON payload of a loan request (`LoanRequest`, `server/era.go`
lines 187-193) after decoding. -/
structure LoanRequestInput where
  loanAmount : ℚ
  loanMemo : String
deriving DecidableEq

/-- The borrower-statistics loop of `LoanRequestFun` lines 789-806: errors
with `LoanAlreadyExists` at the first active record, propagates invalid
state values, and otherwise counts `(no_loans, successful_loans)`. -/
def countLoansForInfo : List LoanRecord → Except Err (ℕ × ℕ)
  | [] => .ok (0, 0)
  | r :: rs =>
    match IsLoanActive r with
    | .error e => .error (.internal e)
    | .ok true => .error .loanAlreadyExists
    | .ok false =>
      match countLoansForInfo rs with
      | .error e => .error e
      | .ok (n, succ) =>
        .ok (n + (if r.state = "REPAID" ∨ r.state = "DEFAULTED" then 1 else 0),
             succ + (if r.state = "REPAID" then 1 else 0))

/-- `LoanRequestFun` from `server/era.go` lines 713-895, as a function of
the datastore pre-state.  `now` is `time.Now().Unix()` in seconds.  The
result pairs the handler's outcome with the datastore post-state. -/
def LoanRequestFun (eras : List (ERA × String)) (uid : String)
    (req : LoanRequestInput) (now : ℤ) (s : ServerState) :
    Except Err LoanRecord × ServerState :=
  if req.loanAmount = 0 then (.error .badJsonPopulation, s)
  else
    match s.user.employmentInfo, s.user.hasResidenceInfo with
    | none, _ => (.error .userDataNotFound, s)
    | some _, false => (.error .userDataNotFound, s)
    | some emp, true =>
      match DefaultActiveLoanIfNecessary (now * 1000) s.loanHistory with
      | .error e => (.error (.internal e), s)
      | .ok (_, h1) =>
        let loanId := uid ++ "-" ++ toString h1.length
        match countLoansForInfo h1 with
        | .error e => (.error e, s)
        | .ok (n, succ) =>
          let borrowerInfo : BorrowerInformation := ⟨n, succ, s.user.qinBalance⟩
          let borrowerApp : BorrowerApp :=
            ⟨uid, req.loanAmount, emp.employmentIncome.getD 0,
             emp.employmentStartMonth.getD 0, emp.employmentStartYear.getD 0,
             emp.employmentStatus⟩
          let responses := processBorrowerRequest eras borrowerApp borrowerInfo
          let record : LoanRecord :=
            { loanId := loanId
              amount := req.loanAmount
              currencyCode := "PHP"
              dueDate := 0
              terms := buildTerms loanId req.loanAmount responses
              acceptedTerms := none
              state := "APPROVED"
              location := none
              repayments := []
              memo := req.loanMemo
              repaidDate := 0
              dateCreated := now * 1000 }
          (.ok record, { s with loanHistory := h1 ++ [record] })

/-- The JSON payload of a select-offer request (`LoanSelectRequest`,
`server/era.go` lines 233-236). -/
structure LoanSelectInput where
  selectedTerm : String
  locationName : String
deriving DecidableEq

/-- `LoanTermsForId` from `server/era.go` lines 961-968. -/
def LoanTermsForId (termId : String) (loanRecord : LoanRecord) : Option LoanTerms :=
  loanRecord.terms.find? (fun t => t.termId == termId)

/-- The term-selection block of `SelectLoanOffer` (`server/era.go` lines
1029-1046): accept the chosen term on the active record when one was
supplied. -/
def selectTermPhase (req : LoanSelectInput) (user : UserP) (r0 : LoanRecord) :
    Except Err LoanRecord :=
  if req.selectedTerm = "" then .ok r0
  else if r0.acceptedTerms.isSome then .error .badJsonPopulation
  else
    match LoanTermsForId req.selectedTerm r0 with
    | none => .error .invalidId
    | some t =>
      if t.qinRequired > user.qinBalance then .error .notEnoughQin
      else .ok { r0 with acceptedTerms := some t }

/-- The pickup-location block of `SelectLoanOffer` (`server/era.go` lines
1048-1077): set location and due date, move to `SENT`, debit the
collateral.  The due date is
`(time.Now().AddDate(0,0,30).Unix() / 86400 * 86400) * 1000`, modelled
with thirty 86400-second days and Go's truncating integer division. -/
def selectLocationPhase (req : LoanSelectInput) (now : ℤ) (s : ServerState)
    (i : ℕ) (r1 : LoanRecord) : Except Err LoanRecord × ServerState :=
  if req.locationName = "" then
    (.ok r1, { s with loanHistory := s.loanHistory.set i r1 })
  else
    match r1.acceptedTerms with
    | none => (.error .badJsonPopulation, s)
    | some t =>
      let r2 : LoanRecord :=
        { r1 with
          location := some req.locationName
          dueDate := Int.tdiv (now + 30 * 86400) 86400 * 86400 * 1000
          state := "SENT" }
      if s.user.qinBalance < t.qinRequired then
        (.error (.internal "Internal Error: user has less QIN than when loan was selected."), s)
      else
        (.ok r2,
         { user := { s.user with qinBalance := s.user.qinBalance - t.qinRequired }
           loanHistory := s.loanHistory.set i r2 })

/-- `SelectLoanOffer` from `server/era.go` lines 970-1100. -/
def SelectLoanOffer (req : LoanSelectInput) (now : ℤ) (s : ServerState) :
    Except Err LoanRecord × ServerState :=
  if req.locationName = "" ∧ req.selectedTerm = "" then (.error .badJsonPopulation, s)
  else
    match ActiveLoanForLoanHistory s.loanHistory with
    | .error e => (.error (.internal e), s)
    | .ok none => (.error .noActiveLoan, s)
    | .ok (some (i, r0)) =>
      if r0.state = "APPROVED" then
        match selectTermPhase req s.user r0 with
        | .error e => (.error e, s)
        | .ok r1 => selectLocationPhase req now s i r1
      else (.error .loanInWrongState, s)

/-- `Repay` from `server/era.go` lines 1102-1206.  When the lazy default
check fires, the transaction still commits the defaulted history and the
handler then fails with `LoanInDefault`; the profile is only written on
the successful-repayment path.  A `SENT` record without accepted terms
would dereference a nil pointer in Go; it is modelled as an internal
failure (unreachable from the operations). -/
def Repay (now : ℤ) (s : ServerState) : Except Err LoanRecord × ServerState :=
  match ActiveLoanForLoanHistory s.loanHistory with
  | .error e => (.error (.internal e), s)
  | .ok none => (.error .noActiveLoan, s)
  | .ok (some (i, r0)) =>
    if r0.state = "SENT" then
      match DefaultActiveLoanIfNecessary (now * 1000) s.loanHistory with
      | .error e => (.error (.internal e), s)
      | .ok (true, h1) => (.error .loanInDefault, { s with loanHistory := h1 })
      | .ok (false, _) =>
        match r0.acceptedTerms with
        | none => (.error (.internal "nil AcceptedTerms"), s)
        | some t =>
          let ts := now * 1000
          let r1 : LoanRecord :=
            { r0 with
              repayments := r0.repayments ++ [⟨t.amountOwed, ts⟩]
              repaidDate := ts
              state := "REPAID" }
          (.ok r1,
           { user := { s.user with qinBalance := s.user.qinBalance + t.qinRequired + t.qinReward }
             loanHistory := s.loanHistory.set i r1 })
    else (.error .loanInWrongState, s)

/-- `GetActiveLoan` from `server/era.go` lines 897-959. The active-loan
lookup after the transaction runs on the possibly defaulted history and
may report `NoActiveLoan` even though the defaulted history persisted. -/
def GetActiveLoan (now : ℤ) (s : ServerState) : Except Err LoanRecord × ServerState :=
  match DefaultActiveLoanIfNecessary (now * 1000) s.loanHistory with
  | .error e => (.error (.internal e), s)
  | .ok (_, h1) =>
    match ActiveLoanForLoanHistory h1 with
    | .error e => (.error (.internal e), { s with loanHistory := h1 })
    | .ok none => (.error .noActiveLoan, { s with loanHistory := h1 })
    | .ok (some (_, r)) => (.ok r, { s with loanHistory := h1 })

/-- `DeleteActiveLoan` from `server/era.go` lines 1208-1269. -/
def DeleteActiveLoan (s : ServerState) : Except Err Bool × ServerState :=
  match ActiveLoanForLoanHistory s.loanHistory with
  | .error e => (.error (.internal e), s)
  | .ok none => (.error .noActiveLoan, s)
  | .ok (some (i, r)) =>
    if r.state = "APPROVED" ∨ r.state = "PENDING" then
      (.ok true, { s with loanHistory := s.loanHistory.set i { r with state := "CANCELED" } })
    else (.error .loanInWrongState, s)

/-- `GetLoans` from `server/era.go` lines 1271-1327. -/
def GetLoans (now : ℤ) (s : ServerState) : Except Err (List LoanRecord) × ServerState :=
  match DefaultActiveLoanIfNecessary (now * 1000) s.loanHistory with
  | .error e => (.error (.internal e), s)
  | .ok (_, h1) => (.ok h1, { s with loanHistory := h1 })

/-- States of the datastore reachable from a freshly registered borrower
(empty loan history) by the public loan operations. -/
inductive Reachable (eras : List (ERA × String)) (uid : String) : ServerState → Prop where
  | init (u : UserP) : Reachable eras uid ⟨u, []⟩
  | request {s : ServerState} (req : LoanRequestInput) (now : ℤ) :
      Reachable eras uid s → Reachable eras uid (LoanRequestFun eras uid req now s).2
  | select {s : ServerState} (req : LoanSelectInput) (now : ℤ) :
      Reachable eras uid s → Reachable eras uid (SelectLoanOffer req now s).2
  | repayStep {s : ServerState} (now : ℤ) :
      Reachable eras uid s → Reachable eras uid (Repay now s).2
  | cancel {s : ServerState} :
      Reachable eras uid s → Reachable eras uid (DeleteActiveLoan s).2
  | getActive {s : ServerState} (now : ℤ) :
      Reachable eras uid s → Reachable eras uid (GetActiveLoan now s).2
  | listStep {s : ServerState} (now : ℤ) :
      Reachable eras uid s → Reachable eras uid (GetLoans now s).2

/-- Boolean form of `IsLoanActive`: a record is counted active when the
predicate succeeds with `true`. -/
def isActiveB (r : LoanRecord) : Bool :=
  match IsLoanActive r with
  | .ok true => true
  | _ => false

/-- Number of active records in a loan history. -/
def activeCount (h : List LoanRecord) : ℕ :=
  h.countP isActiveB

/-- All records of a history carry a state string the lifecycle
recognizes. -/
def allValid (h : List LoanRecord) : Prop :=
  ∀ r ∈ h, ∃ b, IsLoanActive r = .ok b

/-- Size of an optional accumulator. -/
def optCount : Option (ℕ × LoanRecord) → ℕ
  | none => 0
  | some _ => 1

lemma isActiveB_true_of {r : LoanRecord} (h : IsLoanActive r = .ok true) :
    isActiveB r = true := by
  simp [isActiveB, h]

lemma isActiveB_false_of {r : LoanRecord} (h : IsLoanActive r = .ok false) :
    isActiveB r = false := by
  simp [isActiveB, h]

lemma IsLoanActive_congr {r r' : LoanRecord} (h : r.state = r'.state) :
    IsLoanActive r = IsLoanActive r' := by
  simp [IsLoanActive, h]

/-- The scan of `ActiveLoanForLoanHistory` succeeds exactly when the number
of active records plus the accumulator is at most one, and the result then
carries that count. -/
lemma activeLoanAux_count :
    ∀ (h : List LoanRecord) (k : ℕ) (acc res : Option (ℕ × LoanRecord)),
      activeLoanAux k acc h = .ok res →
      h.countP isActiveB + optCount acc = optCount res := by
  intro h
  induction h with
  | nil =>
    intro k acc res hr
    simp only [activeLoanAux] at hr
    cases hr
    simp
  | cons r rs ih =>
    intro k acc res hr
    simp only [activeLoanAux] at hr
    cases hA : IsLoanActive r with
    | error e => rw [hA] at hr; cases hr
    | ok b =>
      rw [hA] at hr
      cases b with
      | true =>
        cases acc with
        | some x => cases hr
        | none =>
          have hrec := ih (k + 1) (some (k, r)) res hr
          rw [List.countP_cons_of_pos isActiveB rs (isActiveB_true_of hA)]
          cases res <;> simp only [optCount] at hrec ⊢ <;> omega
      | false =>
        have hrec := ih (k + 1) acc res hr
        rw [List.countP_cons_of_neg isActiveB rs (by simp [isActiveB_false_of hA])]
        cases acc <;> cases res <;> simp only [optCount] at hrec ⊢ <;> omega

/-- A successful scan means every record's state is recognized. -/
lemma activeLoanAux_valid :
    ∀ (h : List LoanRecord) (k : ℕ) (acc res : Option (ℕ × LoanRecord)),
      activeLoanAux k acc h = .ok res → allValid h := by
  intro h
  induction h with
  | nil => intro k acc res _ r hr; cases hr
  | cons r rs ih =>
    intro k acc res hr
    simp only [activeLoanAux] at hr
    cases hA : IsLoanActive r with
    | error e => rw [hA] at hr; cases hr
    | ok b =>
      rw [hA] at hr
      intro x hx
      rcases List.mem_cons.mp hx with rfl | hmem
      · exact ⟨b, hA⟩
      · cases b with
        | true =>
          cases acc with
          | some y => cases hr
          | none => exact ih (k + 1) (some (k, r)) res hr x hmem
        | false => exact ih (k + 1) acc res hr x hmem

/-- When the scan reports an active record not coming from the
accumulator, that record sits in the list at the reported index, shifted
by the starting index, and is active. -/
lemma activeLoanAux_get :
    ∀ (h : List LoanRecord) (k : ℕ) (acc : Option (ℕ × LoanRecord))
      (i : ℕ) (r : LoanRecord),
      activeLoanAux k acc h = .ok (some (i, r)) →
      acc = some (i, r) ∨
        (k ≤ i ∧ h.get? (i - k) = some r ∧ isActiveB r = true) := by
  intro h
  induction h with
  | nil =>
    intro k acc i r hr
    simp only [activeLoanAux] at hr
    cases hr
    exact Or.inl rfl
  | cons r0 rs ih =>
    intro k acc i r hr
    simp only [activeLoanAux] at hr
    cases hA : IsLoanActive r0 with
    | error e => rw [hA] at hr; cases hr
    | ok b =>
      rw [hA] at hr
      cases b with
      | true =>
        cases acc with
        | some y => cases hr
        | none =>
          rcases ih (k + 1) (some (k, r0)) i r hr with heq | ⟨hk, hget, hact⟩
          · cases heq
            refine Or.inr ⟨le_refl _, ?_, isActiveB_true_of hA⟩
            simp
          · refine Or.inr ⟨by omega, ?_, hact⟩
            have hik : i - k = (i - (k + 1)) + 1 := by omega
            rw [hik]
            simpa using hget
      | false =>
        rcases ih (k + 1) acc i r hr with heq | ⟨hk, hget, hact⟩
        · exact Or.inl heq
        · refine Or.inr ⟨by omega, ?_, hact⟩
          have hik : i - k = (i - (k + 1)) + 1 := by omega
          rw [hik]
          simpa using hget

/-- A scan that finds no active record: the history has none, and every
state is recognized. -/
lemma ActiveLoan_none_spec {h : List LoanRecord}
    (hr : ActiveLoanForLoanHistory h = .ok none) :
    activeCount h = 0 ∧ allValid h := by
  refine ⟨?_, activeLoanAux_valid h 0 none none hr⟩
  have := activeLoanAux_count h 0 none none hr
  simpa [activeCount, optCount] using this

/-- A scan that finds the active record: it is the unique active record in
the history, and every state is recognized. -/
lemma ActiveLoan_some_spec {h : List LoanRecord} {i : ℕ} {r : LoanRecord}
    (hr : ActiveLoanForLoanHistory h = .ok (some (i, r))) :
    h.get? i = some r ∧ isActiveB r = true ∧ activeCount h = 1 ∧ allValid h := by
  have hcount := activeLoanAux_count h 0 none (some (i, r)) hr
  have hvalid := activeLoanAux_valid h 0 none (some (i, r)) hr
  rcases activeLoanAux_get h 0 none i r hr with heq | ⟨_, hget, hact⟩
  · cases heq
  · refine ⟨by simpa using hget, hact, ?_, hvalid⟩
    simpa [activeCount, optCount] using hcount

/-- Replacing one element of a list shifts the predicate count by the
difference between the old and the new element. -/
lemma countP_set (p : LoanRecord → Bool) :
    ∀ (h : List LoanRecord) (i : ℕ) (r r' : LoanRecord),
      h.get? i = some r →
      (h.set i r').countP p + (if p r then 1 else 0)
        = h.countP p + (if p r' then 1 else 0) := by
  intro h
  induction h with
  | nil => intro i r r' hg; cases hg
  | cons a l ih =>
    intro i r r' hg
    cases i with
    | zero =>
      simp only [List.get?] at hg
      cases hg
      simp only [List.set, List.countP_cons]
      omega
    | succ n =>
      simp only [List.get?] at hg
      have hrec := ih n r r' hg
      simp only [List.set, List.countP_cons]
      omega

/-- Replacing an element with one whose state is recognized preserves
state validity of the whole history. -/
lemma allValid_set {h : List LoanRecord} {i : ℕ} {r' : LoanRecord}
    (hv : allValid h) (hr' : ∃ b, IsLoanActive r' = .ok b) :
    allValid (h.set i r') := by
  intro x hx
  rcases List.mem_or_eq_of_mem_set hx with hmem | rfl
  · exact hv x hmem
  · exact hr'

/-- On a history whose states are all recognized and which has no active
record, the scan reports no active loan. -/
lemma activeLoanAux_none :
    ∀ (h : List LoanRecord) (k : ℕ) (acc : Option (ℕ × LoanRecord)),
      allValid h → h.countP isActiveB = 0 → activeLoanAux k acc h = .ok acc := by
  intro h
  induction h with
  | nil => intro k acc _ _; rfl
  | cons r rs ih =>
    intro k acc hv hc
    obtain ⟨b, hA⟩ := hv r (List.mem_cons_self r rs)
    cases b with
    | true =>
      rw [List.countP_cons_of_pos isActiveB rs (isActiveB_true_of hA)] at hc
      omega
    | false =>
      rw [List.countP_cons_of_neg isActiveB rs (by simp [isActiveB_false_of hA])] at hc
      simp only [activeLoanAux, hA]
      exact ih (k + 1) acc (fun x hx => hv x (List.mem_cons_of_mem r hx)) hc

/-- `ActiveLoanForLoanHistory` on a valid history with no active record. -/
lemma ActiveLoan_none_of {h : List LoanRecord}
    (hv : allValid h) (hc : activeCount h = 0) :
    ActiveLoanForLoanHistory h = .ok none :=
  activeLoanAux_none h 0 none hv hc

lemma isActiveB_defaulted (r : LoanRecord) :
    isActiveB { r with state := "DEFAULTED" } = false := rfl

lemma IsLoanActive_defaulted (r : LoanRecord) :
    IsLoanActive { r with state := "DEFAULTED" } = .ok false := rfl

/-- Full characterization of `DefaultActiveLoanIfNecessary` on the success
path: either nothing fires and the history is returned unchanged, or the
unique active record was an overdue `SENT` loan and is marked
`DEFAULTED`. -/
lemma default_spec {t : ℤ} {h : List LoanRecord} {b : Bool} {h' : List LoanRecord}
    (hd : DefaultActiveLoanIfNecessary t h = .ok (b, h')) :
    allValid h ∧
      ((b = false ∧ h' = h) ∨
       (b = true ∧ ∃ i r, ActiveLoanForLoanHistory h = .ok (some (i, r)) ∧
          r.state = "SENT" ∧ ¬ r.dueDate = 0 ∧ r.dueDate < t ∧
          h' = h.set i { r with state := "DEFAULTED" })) := by
  unfold DefaultActiveLoanIfNecessary at hd
  split at hd
  · cases hd
  · rename_i heq
    cases hd
    exact ⟨(ActiveLoan_none_spec heq).2, Or.inl ⟨rfl, rfl⟩⟩
  · rename_i i r heq
    have hvalid := (ActiveLoan_some_spec heq).2.2.2
    split at hd
    · rename_i hst
      split at hd
      · cases hd
      · rename_i hdz
        split at hd
        · rename_i hlt
          cases hd
          exact ⟨hvalid, Or.inr ⟨rfl, i, r, heq, hst, hdz, hlt, rfl⟩⟩
        · cases hd
          exact ⟨hvalid, Or.inl ⟨rfl, rfl⟩⟩
    · cases hd
      exact ⟨hvalid, Or.inl ⟨rfl, rfl⟩⟩

/-- The lazy default check never increases the number of active records,
keeps all states recognized, and leaves no active record at all when it
fires. -/
lemma default_count {t : ℤ} {h : List LoanRecord} {b : Bool} {h' : List LoanRecord}
    (hd : DefaultActiveLoanIfNecessary t h = .ok (b, h')) :
    activeCount h' ≤ activeCount h ∧ allValid h' ∧
      (b = true → activeCount h' = 0) := by
  obtain ⟨hv, hcase⟩ := default_spec hd
  rcases hcase with ⟨hb, rfl⟩ | ⟨hb, i, r, hA, hst, _, _, rfl⟩
  · exact ⟨le_refl _, hv, by simp [hb]⟩
  · obtain ⟨hget, hact, hcount, _⟩ := ActiveLoan_some_spec hA
    have hset := countP_set isActiveB h i r { r with state := "DEFAULTED" } hget
    rw [hact, isActiveB_defaulted] at hset
    norm_num at hset
    unfold activeCount at hcount ⊢
    refine ⟨by omega, allValid_set hv ⟨false, IsLoanActive_defaulted r⟩, fun _ => by omega⟩

/-- A successful borrower-statistics pass means the history has no active
record and all states are recognized. -/
lemma countLoansForInfo_ok_spec :
    ∀ (h : List LoanRecord) (ns : ℕ × ℕ), countLoansForInfo h = .ok ns →
      activeCount h = 0 ∧ allValid h := by
  intro h
  induction h with
  | nil =>
    intro ns _
    exact ⟨rfl, fun r hr => absurd hr (List.not_mem_nil r)⟩
  | cons r rs ih =>
    intro ns hc
    simp only [countLoansForInfo] at hc
    cases hA : IsLoanActive r with
    | error e => rw [hA] at hc; cases hc
    | ok b =>
      rw [hA] at hc
      cases b with
      | true => cases hc
      | false =>
        cases hrs : countLoansForInfo rs with
        | error e => rw [hrs] at hc; cases hc
        | ok ns' =>
          obtain ⟨hcount, hvalid⟩ := ih ns' hrs
          constructor
          · unfold activeCount at hcount ⊢
            rw [List.countP_cons_of_neg isActiveB rs (by simp [isActiveB_false_of hA])]
            exact hcount
          · intro x hx
            rcases List.mem_cons.mp hx with rfl | hmem
            · exact ⟨false, hA⟩
            · exact hvalid x hmem

/-- On a valid history that still contains an active record, the
borrower-statistics pass fails with `LoanAlreadyExists`. -/
lemma countLoansForInfo_active :
    ∀ (h : List LoanRecord), allValid h → 0 < activeCount h →
      countLoansForInfo h = .error .loanAlreadyExists := by
  intro h
  induction h with
  | nil => intro _ hpos; simp [activeCount] at hpos
  | cons r rs ih =>
    intro hv hpos
    obtain ⟨b, hA⟩ := hv r (List.mem_cons_self r rs)
    cases b with
    | true => simp only [countLoansForInfo, hA]
    | false =>
      unfold activeCount at hpos
      rw [List.countP_cons_of_neg isActiveB rs (by simp [isActiveB_false_of hA])] at hpos
      have hrs := ih (fun x hx => hv x (List.mem_cons_of_mem r hx)) hpos
      simp only [countLoansForInfo, hA, hrs]

/-- On a valid history with no active record, the borrower-statistics pass
succeeds. -/
lemma countLoansForInfo_ok_of :
    ∀ (h : List LoanRecord), allValid h → activeCount h = 0 →
      ∃ ns, countLoansForInfo h = .ok ns := by
  intro h
  induction h with
  | nil => intro _ _; exact ⟨(0, 0), rfl⟩
  | cons r rs ih =>
    intro hv hc
    obtain ⟨b, hA⟩ := hv r (List.mem_cons_self r rs)
    cases b with
    | true =>
      exfalso
      unfold activeCount at hc
      rw [List.countP_cons_of_pos isActiveB rs (isActiveB_true_of hA)] at hc
      omega
    | false =>
      unfold activeCount at hc
      rw [List.countP_cons_of_neg isActiveB rs (by simp [isActiveB_false_of hA])] at hc
      obtain ⟨ns, hns⟩ := ih (fun x hx => hv x (List.mem_cons_of_mem r hx)) hc
      exact ⟨(ns.1 + (if r.state = "REPAID" ∨ r.state = "DEFAULTED" then 1 else 0),
              ns.2 + (if r.state = "REPAID" then 1 else 0)),
             by simp only [countLoansForInfo, hA, hns]⟩

lemma GetLoans_inv (now : ℤ) (s : ServerState)
    (hs : activeCount s.loanHistory ≤ 1) :
    activeCount (GetLoans now s).2.loanHistory ≤ 1 := by
  unfold GetLoans
  split
  · exact hs
  · rename_i b h1 heq
    exact le_trans (default_count heq).1 hs

lemma GetActiveLoan_inv (now : ℤ) (s : ServerState)
    (hs : activeCount s.loanHistory ≤ 1) :
    activeCount (GetActiveLoan now s).2.loanHistory ≤ 1 := by
  unfold GetActiveLoan
  split
  · exact hs
  · rename_i b h1 heq
    have hle := le_trans (default_count heq).1 hs
    split <;> exact hle

lemma DeleteActiveLoan_inv (s : ServerState)
    (hs : activeCount s.loanHistory ≤ 1) :
    activeCount (DeleteActiveLoan s).2.loanHistory ≤ 1 := by
  unfold DeleteActiveLoan
  split
  · exact hs
  · exact hs
  · rename_i i r heq
    split
    · obtain ⟨hget, hact, hcount, _⟩ := ActiveLoan_some_spec heq
      have hset := countP_set isActiveB s.loanHistory i r { r with state := "CANCELED" } hget
      rw [hact, show isActiveB { r with state := "CANCELED" } = false from rfl] at hset
      norm_num at hset
      simp only [activeCount] at hcount ⊢
      omega
    · exact hs

lemma LoanRequestFun_inv (eras : List (ERA × String)) (uid : String)
    (req : LoanRequestInput) (now : ℤ) (s : ServerState)
    (hs : activeCount s.loanHistory ≤ 1) :
    activeCount (LoanRequestFun eras uid req now s).2.loanHistory ≤ 1 := by
  unfold LoanRequestFun
  split
  · exact hs
  · split
    · exact hs
    · exact hs
    · rename_i emp hemp
      split
      · exact hs
      · rename_i b h1 heq
        split
        · exact hs
        · rename_i n succ hcnt
          have h0 : activeCount h1 = 0 := (countLoansForInfo_ok_spec h1 (n, succ) hcnt).1
          simp only [activeCount, List.countP_append] at h0 ⊢
          rw [h0]
          simp [isActiveB, IsLoanActive]

/-- The term-selection phase never changes the record's state field. -/
lemma selectTermPhase_state {req : LoanSelectInput} {user : UserP}
    {r0 r1 : LoanRecord} (hstep : selectTermPhase req user r0 = .ok r1) :
    r1.state = r0.state := by
  unfold selectTermPhase at hstep
  split at hstep
  · cases hstep; rfl
  · split at hstep
    · cases hstep
    · split at hstep
      · cases hstep
      · split at hstep
        · cases hstep
        · cases hstep; rfl

lemma SelectLoanOffer_inv (req : LoanSelectInput) (now : ℤ) (s : ServerState)
    (hs : activeCount s.loanHistory ≤ 1) :
    activeCount (SelectLoanOffer req now s).2.loanHistory ≤ 1 := by
  unfold SelectLoanOffer
  split
  · exact hs
  · split
    · exact hs
    · exact hs
    · rename_i i r0 heq
      obtain ⟨hget, hact, hcount, _⟩ := ActiveLoan_some_spec heq
      split
      · split
        · exact hs
        · rename_i r1 hstep
          have hr1 : r1.state = r0.state := selectTermPhase_state hstep
          have hact1 : isActiveB r1 = true := by
            have : isActiveB r1 = isActiveB r0 := by
              simp [isActiveB, IsLoanActive, hr1]
            rw [this, hact]
          unfold selectLocationPhase
          split
          · have hset := countP_set isActiveB s.loanHistory i r0 r1 hget
            rw [hact, hact1] at hset
            simp only [activeCount] at hcount ⊢
            omega
          · split
            · exact hs
            · rename_i t hterms
              split
              · exact hs
              · have hset := countP_set isActiveB s.loanHistory i r0
                  { r1 with
                    location := some req.locationName
                    dueDate := Int.tdiv (now + 30 * 86400) 86400 * 86400 * 1000
                    state := "SENT" } hget
                rw [hact, show isActiveB
                  { r1 with
                    location := some req.locationName
                    dueDate := Int.tdiv (now + 30 * 86400) 86400 * 86400 * 1000
                    state := "SENT" } = true from rfl] at hset
                simp only [activeCount] at hcount ⊢
                omega
      · exact hs

lemma Repay_inv (now : ℤ) (s : ServerState)
    (hs : activeCount s.loanHistory ≤ 1) :
    activeCount (Repay now s).2.loanHistory ≤ 1 := by
  unfold Repay
  split
  · exact hs
  · exact hs
  · rename_i i r0 heq
    obtain ⟨hget, hact, hcount, _⟩ := ActiveLoan_some_spec heq
    split
    · split
      · exact hs
      · rename_i h1 heqd
        have := (default_count heqd).2.2 rfl
        simp only [activeCount] at this ⊢
        omega
      · rename_i h1 heqd
        split
        · exact hs
        · rename_i t hterms
          have hset := countP_set isActiveB s.loanHistory i r0
            { r0 with
              repayments := r0.repayments ++ [⟨t.amountOwed, now * 1000⟩]
              repaidDate := now * 1000
              state := "REPAID" } hget
          rw [hact, show isActiveB
            { r0 with
              repayments := r0.repayments ++ [⟨t.amountOwed, now * 1000⟩]
              repaidDate := now * 1000
              state := "REPAID" } = false from rfl] at hset
          norm_num at hset
          simp only [activeCount] at hcount ⊢
          omega
    · exact hs

/-- C1: For every loan history reachable by any sequence of the public
operations (requestLoan, selectOffer, repay, cancelActiveLoan,
getActiveLoan, listLoans), at most one LoanRecord is in an active state;
and whenever an active record survives the lazy default check, requestLoan
fails with `LoanAlreadyExists` and leaves the datastore unchanged instead
of appending a new record. -/
theorem C1_single_active_loan :
    (∀ (eras : List (ERA × String)) (uid : String) (s : ServerState),
        Reachable eras uid s → activeCount s.loanHistory ≤ 1)
  ∧ (∀ (eras : List (ERA × String)) (uid : String) (req : LoanRequestInput)
        (now : ℤ) (s : ServerState) (b : Bool) (h1 : List LoanRecord),
        ¬ req.loanAmount = 0 → ¬ s.user.employmentInfo = none →
        s.user.hasResidenceInfo = true →
        DefaultActiveLoanIfNecessary (now * 1000) s.loanHistory = .ok (b, h1) →
        0 < activeCount h1 →
        LoanRequestFun eras uid req now s = (.error .loanAlreadyExists, s)) := by
  constructor
  · intro eras uid s hreach
    induction hreach with
    | init u => simp [activeCount]
    | request req now _ ih => exact LoanRequestFun_inv _ _ _ _ _ ih
    | select req now _ ih => exact SelectLoanOffer_inv _ _ _ ih
    | repayStep now _ ih => exact Repay_inv _ _ ih
    | cancel _ ih => exact DeleteActiveLoan_inv _ ih
    | getActive now _ ih => exact GetActiveLoan_inv _ _ ih
    | listStep now _ ih => exact GetLoans_inv _ _ ih
  · intro eras uid req now s b h1 hamt hemp hres hd hpos
    have hcl : countLoansForInfo h1 = .error .loanAlreadyExists :=
      countLoansForInfo_active h1 (default_count hd).2.1 hpos
    cases hE : s.user.employmentInfo with
    | none => exact absurd hE hemp
    | some emp =>
      unfold LoanRequestFun
      rw [if_neg hamt]
      simp only [hE, hres, hd, hcl]

/-- A registered borrower profile used to instantiate the theorems. -/
def demoUser : UserP :=
  ⟨10, some ⟨"EMPLOYED", some 1, some 2015, some 500⟩, true⟩

/-- A loan record in `PENDING` state. -/
def demoPendingRecord : LoanRecord :=
  { loanId := "u-0", amount := 1000, currencyCode := "PHP", dueDate := 0,
    terms := [], acceptedTerms := none, state := "PENDING",
    location := none, repayments := [], memo := "", repaidDate := 0,
    dateCreated := 0 }

/-- A datastore with one pending (active) loan. -/
def demoPendingState : ServerState := ⟨demoUser, [demoPendingRecord]⟩

theorem C1_witness :
    activeCount (ServerState.mk demoUser []).loanHistory ≤ 1
  ∧ LoanRequestFun [] "u" ⟨1000, ""⟩ 5 demoPendingState
      = (.error .loanAlreadyExists, demoPendingState) := by
  constructor
  · exact C1_single_active_loan.1 [] "u" ⟨demoUser, []⟩ (Reachable.init demoUser)
  · exact C1_single_active_loan.2 [] "u" ⟨1000, ""⟩ 5 demoPendingState false
      [demoPendingRecord] (by norm_num) (by decide) (by decide) rfl (by decide)

/-- C2: From a `SENT` active record with accepted terms whose due date is
set: if the lazy default check does not fire, `Repay` appends exactly one
repayment equal to `amountOwed`, credits the profile with
collateral + reward, and moves the record to `REPAID`; if the check fires
in the same operation, `Repay` fails with `LoanInDefault` and the profile
balance is unchanged. -/
theorem C2_repay_settlement (s : ServerState) (now : ℤ) (i : ℕ)
    (r : LoanRecord) (t : LoanTerms)
    (hact : ActiveLoanForLoanHistory s.loanHistory = .ok (some (i, r)))
    (hstate : r.state = "SENT") (hterms : r.acceptedTerms = some t)
    (hdue : ¬ r.dueDate = 0) :
    (¬ r.dueDate < now * 1000 →
       ∃ r', Repay now s =
           (.ok r',
            { user := { s.user with
                qinBalance := s.user.qinBalance + t.qinRequired + t.qinReward }
              loanHistory := s.loanHistory.set i r' })
         ∧ r'.repayments = r.repayments ++ [⟨t.amountOwed, now * 1000⟩]
         ∧ r'.state = "REPAID")
  ∧ (r.dueDate < now * 1000 →
       (Repay now s).1 = .error .loanInDefault
     ∧ (Repay now s).2.user.qinBalance = s.user.qinBalance) := by
  constructor
  · intro hnl
    have hd : DefaultActiveLoanIfNecessary (now * 1000) s.loanHistory
        = .ok (false, s.loanHistory) := by
      unfold DefaultActiveLoanIfNecessary
      simp [hact, hstate, hdue, hnl]
    refine ⟨{ r with
        repayments := r.repayments ++ [⟨t.amountOwed, now * 1000⟩]
        repaidDate := now * 1000
        state := "REPAID" }, ?_, rfl, rfl⟩
    unfold Repay
    simp [hact, hstate, hd, hterms]
  · intro hlt
    have hd : DefaultActiveLoanIfNecessary (now * 1000) s.loanHistory
        = .ok (true, s.loanHistory.set i { r with state := "DEFAULTED" }) := by
      unfold DefaultActiveLoanIfNecessary
      simp [hact, hstate, hdue, hlt]
    unfold Repay
    simp [hact, hstate, hd]

/-- Accepted terms with collateral 10, reward 1 and amount owed 1050. -/
def demoAcceptedTerms : LoanTerms := ⟨"u-0-0", 0.05, 1, 10, 1050, "OneDaijo"⟩

/-- A `SENT` loan with the accepted terms above, due far in the future. -/
def demoSentRecord : LoanRecord :=
  { loanId := "u-0", amount := 1000, currencyCode := "PHP",
    dueDate := 4070908800000, terms := [demoAcceptedTerms],
    acceptedTerms := some demoAcceptedTerms, state := "SENT",
    location := some "Manila", repayments := [], memo := "",
    repaidDate := 0, dateCreated := 0 }

/-- A datastore with balance 10 and the `SENT` loan above. -/
def demoSentState : ServerState := ⟨demoUser, [demoSentRecord]⟩

theorem C2_witness :
    (Repay 5 demoSentState).2.user.qinBalance = 21
  ∧ ∃ r', (Repay 5 demoSentState).1 = .ok r' ∧ r'.state = "REPAID"
      ∧ r'.repayments = [⟨1050, 5000⟩] := by
  obtain ⟨r', hEq, hrep, hst⟩ :=
    (C2_repay_settlement demoSentState 5 0 demoSentRecord demoAcceptedTerms rfl rfl rfl
      (by decide)).1 (by decide)
  refine ⟨?_, r', ?_, hst, ?_⟩
  · rw [hEq]; norm_num [demoSentState, demoUser, demoAcceptedTerms]
  · rw [hEq]
  · rw [hrep]; rfl

/-- The presentation loop assigns exactly one rounded term per
non-rejecting assessor. -/
lemma assignTerms_length (loanId : String) (amount : ℚ) :
    ∀ (responses : List (Option ERATerms)) (k : ℕ),
      (assignTerms loanId amount responses k).length
        = responses.countP (fun r => r.isSome) := by
  intro responses
  induction responses with
  | nil => intro k; rfl
  | cons r rest ih =>
    intro k
    cases r with
    | none => simp [assignTerms, ih k]
    | some t => simp [assignTerms, ih (k + 1)]

/-- C4: When every assessor contributes no offer, the engine synthesizes
exactly one fallback term with rate 0.05, reward 0.10, collateral 0, term
id `loanId-0`, offered by the platform; and the term list of a new loan is
never empty. -/
theorem C4_fallback_guarantee (eras : List (ERA × String)) (app : BorrowerApp)
    (info : BorrowerInformation) (loanId : String) (amount : ℚ)
    (hall : ∀ resp ∈ processBorrowerRequest eras app info, resp = none) :
    buildTerms loanId amount (processBorrowerRequest eras app info)
      = [{ termId := loanId ++ "-0", interestRate := 5/100, qinReward := 1/10,
           qinRequired := 0,
           amountOwed := Round ((1 + 5/100) * amount * 100) / 100,
           offeredBy := "OneDaijo" }]
  ∧ ∀ responses : List (Option ERATerms),
      1 ≤ (buildTerms loanId amount responses).length := by
  constructor
  · have hzero : (processBorrowerRequest eras app info).countP (fun r => r.isSome) = 0 := by
      rw [List.countP_eq_zero]
      intro a ha
      rw [hall a ha]
      simp
    unfold buildTerms
    rw [hzero]
    rfl
  · intro responses
    unfold buildTerms
    split
    · rename_i hpos
      rw [assignTerms_length]
      omega
    · simp

/-- An assessor that always rejects. -/
def alwaysRejectERA : ERA :=
  ⟨fun _ => 0, fun _ => 0, fun _ _ => 0, fun _ _ => 0, fun _ => true⟩

theorem C4_witness :
    (∀ resp ∈ processBorrowerRequest [(alwaysRejectERA, "R")]
        ⟨"b", 1000, 0, 0, 0, "EMPLOYED"⟩ ⟨0, 0, 0⟩, resp = none)
  ∧ buildTerms "u-0" 1000
      (processBorrowerRequest [(alwaysRejectERA, "R")]
        ⟨"b", 1000, 0, 0, 0, "EMPLOYED"⟩ ⟨0, 0, 0⟩)
      = [{ termId := "u-0" ++ "-0", interestRate := 5/100, qinReward := 1/10,
           qinRequired := 0,
           amountOwed := Round ((1 + 5/100) * 1000 * 100) / 100,
           offeredBy := "OneDaijo" }]
  ∧ 1 ≤ (buildTerms "u-0" 1000 ([] : List (Option ERATerms))).length := by
  have hall : ∀ resp ∈ processBorrowerRequest [(alwaysRejectERA, "R")]
      ⟨"b", 1000, 0, 0, 0, "EMPLOYED"⟩ ⟨0, 0, 0⟩, resp = none := by decide
  have h := C4_fallback_guarantee [(alwaysRejectERA, "R")]
    ⟨"b", 1000, 0, 0, 0, "EMPLOYED"⟩ ⟨0, 0, 0⟩ "u-0" 1000 hall
  exact ⟨hall, h.1, h.2 []⟩

/-- C5: The clamped default probability always lies in [0,1], and every
response an assessor emits carries an interest rate in
[0, MAX_INTEREST_RATE] and a nonnegative qin reward, for any assessor
implementation. -/
theorem C5_clamping (era : ERA) (app : BorrowerApp)
    (info : BorrowerInformation) (loan_fraction : ℚ) (name : String)
    (t : ERATerms)
    (h : processBorrowerApp era app info loan_fraction name = some t) :
    (∀ p : ℚ, 0 ≤ clamp01 p ∧ clamp01 p ≤ 1)
  ∧ 0 ≤ t.interest_rate ∧ t.interest_rate ≤ MAX_INTEREST_RATE
  ∧ 0 ≤ t.qin_reward := by
  have hclamp : ∀ p : ℚ, 0 ≤ clamp01 p ∧ clamp01 p ≤ 1 := by
    intro p
    unfold clamp01
    split
    · norm_num
    · split
      · norm_num
      · constructor <;> linarith
  have hrate : ∀ r : ℚ, 0 ≤ clampRate r ∧ clampRate r ≤ MAX_INTEREST_RATE := by
    intro r
    unfold clampRate MAX_INTEREST_RATE
    split
    · norm_num
    · split
      · norm_num
      · norm_num at *
        constructor <;> linarith
  refine ⟨hclamp, ?_⟩
  unfold processBorrowerApp at h
  try dsimp only [] at h
  repeat' split at h
  all_goals
    first
      | (cases h
         refine ⟨(hrate _).1, (hrate _).2, ?_⟩
         try dsimp only []
         first
           | (rename_i hq
              exact not_lt.mp hq)
           | norm_num)
      | exact Option.noConfusion h

/-- An assessor emitting out-of-range raw values (probability 3/2, rate 1,
reward -5), used to exercise the clamps. -/
def wildERA : ERA :=
  ⟨fun _ => 3/2, fun _ => 1, fun _ _ => 0, fun _ _ => -5, fun _ => false⟩

theorem C5_witness :
    ∃ t, processBorrowerApp wildERA ⟨"b", 1000, 0, 0, 0, "EMPLOYED"⟩ ⟨0, 0, 0⟩ 20 "W" = some t
      ∧ 0 ≤ t.interest_rate ∧ t.interest_rate ≤ MAX_INTEREST_RATE ∧ 0 ≤ t.qin_reward
      ∧ 0 ≤ clamp01 (3/2 : ℚ) ∧ clamp01 (3/2 : ℚ) ≤ 1 := by
  have hp : processBorrowerApp wildERA ⟨"b", 1000, 0, 0, 0, "EMPLOYED"⟩ ⟨0, 0, 0⟩ 20 "W"
      = some ⟨MAX_INTEREST_RATE, 0, 0, 20 * MAX_INTEREST_RATE, "W"⟩ := by
    norm_num [processBorrowerApp, wildERA, clamp01, clampRate, MAX_INTEREST_RATE,
      GRACE_NUM_LOANS]
  obtain ⟨hclamp, h1, h2, h3⟩ :=
    C5_clamping wildERA ⟨"b", 1000, 0, 0, 0, "EMPLOYED"⟩ ⟨0, 0, 0⟩ 20 "W" _ hp
  exact ⟨_, hp, h1, h2, h3, (hclamp (3/2)).1, (hclamp (3/2)).2⟩

/-- An assessor whose `computeQinCollateral` returns a negative value and
which never rejects a borrower. -/
def negCollateralERA : ERA :=
  ⟨fun _ => 0, fun _ => 0, fun _ _ => -1, fun _ _ => 0, fun _ => false⟩

/-- C6 (code divergence): for a borrower past the grace period,
`processBorrowerApp` emits a response whose qin collateral equals the
assessor's raw negative output — the clamp the code's own comment at
`server/era.go` lines 92-93 announces for `qin_collateral` does not
exist, so the claimed invariant "qin collateral >= 0 for any assessor"
fails. -/
theorem C6_negative_collateral_emitted :
    processBorrowerApp negCollateralERA ⟨"b", 1000, 0, 0, 0, "EMPLOYED"⟩
        ⟨1, 0, 0⟩ 20 "Evil"
      = some ⟨0, -1, 0, 0, "Evil"⟩
  ∧ ((-1 : ℚ) < 0) := by
  constructor
  · norm_num [processBorrowerApp, negCollateralERA, clamp01, clampRate,
      MAX_INTEREST_RATE, GRACE_NUM_LOANS]
  · norm_num

/-- C7: every built-in assessor's required collateral is weakly decreasing
in the successful-loan count, for any nonnegative (e.g. clamped) default
probability. -/
theorem C7_collateral_monotone (p : ℚ) (hp : 0 ≤ p) (s1 s2 : ℕ) (hs : s1 ≤ s2) :
    KivaERA.computeQinCollateral p s2 ≤ KivaERA.computeQinCollateral p s1
  ∧ ProsperERA.computeQinCollateral p s2 ≤ ProsperERA.computeQinCollateral p s1
  ∧ NaiveERA.computeQinCollateral p s2 ≤ NaiveERA.computeQinCollateral p s1
  ∧ RandomERA.computeQinCollateral p s2 ≤ RandomERA.computeQinCollateral p s1 := by
  have key : (1 : ℚ) / ((s2 : ℚ) + 1) ≤ 1 / ((s1 : ℚ) + 1) := by
    apply one_div_le_one_div_of_le
    · positivity
    · have hcast : (s1 : ℚ) ≤ (s2 : ℚ) := by exact_mod_cast hs
      linarith
  have hm : p * MAX_QIN_COLLATERAL * (1 / ((s2 : ℚ) + 1))
      ≤ p * MAX_QIN_COLLATERAL * (1 / ((s1 : ℚ) + 1)) := by
    apply mul_le_mul_of_nonneg_left key
    exact mul_nonneg hp (by norm_num [MAX_QIN_COLLATERAL])
  refine ⟨?_, ?_, ?_, ?_⟩ <;>
    simp only [KivaERA.computeQinCollateral, ProsperERA.computeQinCollateral,
      NaiveERA.computeQinCollateral, RandomERA.computeQinCollateral] <;>
    exact hm

theorem C7_witness :
    (0 : ℚ) ≤ 1/2 ∧ (1 : ℕ) ≤ 3
  ∧ KivaERA.computeQinCollateral (1/2) 3 ≤ KivaERA.computeQinCollateral (1/2) 1 :=
  ⟨by norm_num, by norm_num,
   (C7_collateral_monotone (1/2) (by norm_num) 1 3 (by norm_num)).1⟩

/-- On nonnegative inputs `Round` is floor of the half-shifted value. -/
lemma Round_nonneg (q : ℚ) (hq : 0 ≤ q) :
    Round q = ((⌊q + 1/2⌋ : ℤ) : ℚ) := by
  unfold Round ratTrunc
  rw [if_neg (not_lt.mpr hq), if_neg (not_lt.mpr (by linarith : (0:ℚ) ≤ q + 1/2))]

/-- On negative inputs `Round` is ceiling of the half-shifted value, i.e.
rounding half away from zero. -/
lemma Round_neg (q : ℚ) (hq : q < 0) :
    Round q = ((⌈q - 1/2⌉ : ℤ) : ℚ) := by
  unfold Round ratTrunc
  rw [if_pos hq]
  have hval : q + -(1/2) = q - 1/2 := by ring
  rw [hval, if_pos (by linarith : q - 1/2 < 0)]

/-- `Round` lands within half a unit of its argument. -/
lemma abs_Round_sub_le (q : ℚ) : |Round q - q| ≤ 1/2 := by
  rcases le_or_lt 0 q with hq | hq
  · rw [Round_nonneg q hq]
    have h1 := Int.floor_le (q + 1/2)
    have h2 := Int.lt_floor_add_one (q + 1/2)
    rw [abs_le]
    constructor <;> linarith
  · rw [Round_neg q hq]
    have h1 := Int.le_ceil (q - 1/2)
    have h2 := Int.ceil_lt_add_one (q - 1/2)
    rw [abs_le]
    constructor <;> linarith

/-- Scaling by `c`, rounding, and unscaling lands on the grid of
multiples of `1/c`, within half a grid step of the input. -/
lemma Round_grid (x c : ℚ) (hc : 0 < c) :
    (∃ k : ℤ, Round (x * c) / c = (k : ℚ) / c)
  ∧ |Round (x * c) / c - x| ≤ 1 / (2 * c) := by
  constructor
  · exact ⟨ratTrunc (x * c + if x * c < 0 then -(1/2) else 1/2), rfl⟩
  · have h := abs_Round_sub_le (x * c)
    have hx : Round (x * c) / c - x = (Round (x * c) - x * c) / c := by
      field_simp
      ring
    rw [hx, abs_div, abs_of_pos hc]
    have hdiv : |Round (x * c) - x * c| / c ≤ (1/2) / c :=
      (div_le_div_iff_of_pos_right hc).mpr h
    have hgrid : (1/2 : ℚ) / c = 1 / (2 * c) := by
      field_simp
    rw [hgrid] at hdiv
    exact hdiv

/-- C9: presented terms are rounded half-away-from-zero — the rate to the
nearest 0.0001, reward and collateral to the nearest 0.01 — and
`amountOwed` is `Round ((1+rate)*principal*100)/100`; for principal 1000
and rate 0.05 the amount owed is exactly 1050. -/
theorem C9_rounding (loanId : String) (idx : ℕ) (amount : ℚ) (r : ERATerms) :
    (∀ q : ℚ, (0 ≤ q → Round q = ((⌊q + 1/2⌋ : ℤ) : ℚ))
            ∧ (q < 0 → Round q = ((⌈q - 1/2⌉ : ℤ) : ℚ)))
  ∧ (∃ k : ℤ, (roundedTerm loanId idx amount r).interestRate = (k : ℚ) / 10000)
  ∧ |(roundedTerm loanId idx amount r).interestRate - r.interest_rate| ≤ 1 / 20000
  ∧ (∃ k : ℤ, (roundedTerm loanId idx amount r).qinReward = (k : ℚ) / 100)
  ∧ |(roundedTerm loanId idx amount r).qinReward - r.qin_reward| ≤ 1 / 200
  ∧ (∃ k : ℤ, (roundedTerm loanId idx amount r).qinRequired = (k : ℚ) / 100)
  ∧ |(roundedTerm loanId idx amount r).qinRequired - r.qin_collateral| ≤ 1 / 200
  ∧ (roundedTerm loanId idx amount r).amountOwed
      = Round ((1 + (roundedTerm loanId idx amount r).interestRate) * amount * 100) / 100
  ∧ (roundedTerm "u-0" 0 1000 ⟨5/100, 0, 0, 0, "x"⟩).amountOwed = 1050 := by
  have hrate := Round_grid r.interest_rate 10000 (by norm_num)
  have hrew := Round_grid r.qin_reward 100 (by norm_num)
  have hcol := Round_grid r.qin_collateral 100 (by norm_num)
  refine ⟨fun q => ⟨Round_nonneg q, Round_neg q⟩, hrate.1, ?_, hrew.1, ?_, hcol.1, ?_, rfl, ?_⟩
  · have := hrate.2
    norm_num at this ⊢
    exact this
  · have := hrew.2
    norm_num at this ⊢
    exact this
  · have := hcol.2
    norm_num at this ⊢
    exact this
  · have h500 : Round ((5/100 : ℚ) * 10000) = 500 := by
      rw [Round_nonneg _ (by norm_num)]
      norm_num
    show Round ((1 + Round ((5/100 : ℚ) * 10000) / 10000) * 1000 * 100) / 100 = 1050
    rw [h500]
    rw [show ((1 + (500:ℚ)/10000) * 1000 * 100) = 105000 from by norm_num]
    rw [Round_nonneg _ (by norm_num)]
    norm_num

theorem C9_witness :
    ((0:ℚ) ≤ 3/2 ∧ Round (3/2) = ((⌊(3/2:ℚ) + 1/2⌋ : ℤ) : ℚ))
  ∧ (roundedTerm "u-0" 0 1000 ⟨5/100, 0, 0, 0, "x"⟩).amountOwed = 1050 := by
  refine ⟨⟨by norm_num, ?_⟩,
    (C9_rounding "u-0" 0 1000 ⟨5/100, 0, 0, 0, "x"⟩).2.2.2.2.2.2.2.2⟩
  exact ((C9_rounding "a" 0 1 ⟨0, 0, 0, 0, "y"⟩).1 (3/2)).1 (by norm_num)

/-- C8: the lazy default check is idempotent — a second application at the
same time returns the same history and reports no modification. -/
theorem C8_default_idempotent (t : ℤ) (h : List LoanRecord) (b : Bool)
    (h' : List LoanRecord)
    (hd : DefaultActiveLoanIfNecessary t h = .ok (b, h')) :
    DefaultActiveLoanIfNecessary t h' = .ok (false, h') := by
  obtain ⟨hv, hcase⟩ := default_spec hd
  rcases hcase with ⟨hb, rfl⟩ | ⟨hb, i, r, hA, hst, hdz, hlt, rfl⟩
  · subst hb
    exact hd
  · have hnone : ActiveLoanForLoanHistory
        (h.set i { r with state := "DEFAULTED" }) = .ok none := by
      apply ActiveLoan_none_of
      · exact allValid_set hv ⟨false, IsLoanActive_defaulted r⟩
      · obtain ⟨hget, hactv, hcount, _⟩ := ActiveLoan_some_spec hA
        have hset := countP_set isActiveB h i r { r with state := "DEFAULTED" } hget
        rw [hactv, isActiveB_defaulted] at hset
        norm_num at hset
        simp only [activeCount] at hcount ⊢
        omega
    unfold DefaultActiveLoanIfNecessary
    rw [hnone]

/-- A `SENT` loan whose due date (in ms) is already past. -/
def demoOverdueRecord : LoanRecord :=
  { demoSentRecord with dueDate := 1000 }

theorem C8_witness :
    DefaultActiveLoanIfNecessary 5000 [{ demoOverdueRecord with state := "DEFAULTED" }]
      = .ok (false, [{ demoOverdueRecord with state := "DEFAULTED" }]) := by
  have hd : DefaultActiveLoanIfNecessary 5000 [demoOverdueRecord]
      = .ok (true, [demoOverdueRecord].set 0 { demoOverdueRecord with state := "DEFAULTED" }) := rfl
  have h2 := C8_default_idempotent 5000 [demoOverdueRecord] true _ hd
  simpa using h2

/-- A datastore whose single loan is `SENT` and overdue. -/
def demoOverdueState : ServerState := ⟨demoUser, [demoOverdueRecord]⟩

/-- C3 counterexample: with an overdue `SENT` active loan, `selectOffer`
returns `LoanInWrongState` and leaves the record `SENT` — it does not
evaluate the lazy default check — and so does `cancelActiveLoan`; the
claim that every loan-history operation first defaults and persists the
record is false. -/
theorem C3_counterexample :
    demoOverdueRecord.state = "SENT"
  ∧ ¬ demoOverdueRecord.dueDate = 0
  ∧ demoOverdueRecord.dueDate < 10 * 1000
  ∧ SelectLoanOffer ⟨"u-0-0", ""⟩ 10 demoOverdueState
      = (.error .loanInWrongState, demoOverdueState)
  ∧ DeleteActiveLoan demoOverdueState = (.error .loanInWrongState, demoOverdueState)
  ∧ (SelectLoanOffer ⟨"u-0-0", ""⟩ 10 demoOverdueState).2.loanHistory
      = [demoOverdueRecord] :=
  ⟨rfl, by decide, by decide, rfl, rfl, rfl⟩

/-- C3 (amended): the lazy default check is evaluated — and the DEFAULTED
transition persisted — by requestLoan, getActiveLoan, repay and listLoans
(in repay after the SENT-state validation, which is observationally
equivalent); selectOffer and cancelActiveLoan do not evaluate it and
leave the overdue record untouched. -/
theorem C3_lazy_default_amended (s : ServerState) (now : ℤ) (i : ℕ)
    (r : LoanRecord)
    (hact : ActiveLoanForLoanHistory s.loanHistory = .ok (some (i, r)))
    (hstate : r.state = "SENT") (hdz : ¬ r.dueDate = 0)
    (hover : r.dueDate < now * 1000) :
    (GetActiveLoan now s).2.loanHistory
      = s.loanHistory.set i { r with state := "DEFAULTED" }
  ∧ (GetLoans now s).2.loanHistory
      = s.loanHistory.set i { r with state := "DEFAULTED" }
  ∧ (Repay now s).2.loanHistory
      = s.loanHistory.set i { r with state := "DEFAULTED" }
  ∧ (∀ (eras : List (ERA × String)) (uid : String) (req : LoanRequestInput),
       ¬ req.loanAmount = 0 → ¬ s.user.employmentInfo = none →
       s.user.hasResidenceInfo = true →
       ∃ rec, (LoanRequestFun eras uid req now s).2.loanHistory
         = s.loanHistory.set i { r with state := "DEFAULTED" } ++ [rec])
  ∧ (∀ req, (SelectLoanOffer req now s).2 = s)
  ∧ (DeleteActiveLoan s).2 = s := by
  have hd : DefaultActiveLoanIfNecessary (now * 1000) s.loanHistory
      = .ok (true, s.loanHistory.set i { r with state := "DEFAULTED" }) := by
    unfold DefaultActiveLoanIfNecessary
    simp [hact, hstate, hdz, hover]
  refine ⟨?_, ?_, ?_, ?_, ?_, ?_⟩
  · unfold GetActiveLoan
    simp only [hd]
    split <;> rfl
  · unfold GetLoans
    simp only [hd]
  · unfold Repay
    simp [hact, hstate, hd]
  · intro eras uid req hamt hemp hres
    have hcm := default_count hd
    obtain ⟨ns, hns⟩ := countLoansForInfo_ok_of _ hcm.2.1 (hcm.2.2 rfl)
    obtain ⟨n, succ⟩ := ns
    cases hE : s.user.employmentInfo with
    | none => exact absurd hE hemp
    | some emp =>
      unfold LoanRequestFun
      rw [if_neg hamt]
      simp only [hE, hres, hd, hns]
      exact ⟨_, rfl⟩
  · intro req
    unfold SelectLoanOffer
    split
    · rfl
    · simp [hact, hstate]
  · unfold DeleteActiveLoan
    simp [hact, hstate]

theorem C3_witness :
    (GetLoans 10 demoOverdueState).2.loanHistory
      = [{ demoOverdueRecord with state := "DEFAULTED" }]
  ∧ (SelectLoanOffer ⟨"t", ""⟩ 10 demoOverdueState).2 = demoOverdueState := by
  have h := C3_lazy_default_amended demoOverdueState 10 0 demoOverdueRecord rfl rfl
    (by decide) (by decide)
  refine ⟨?_, h.2.2.2.2.1 ⟨"t", ""⟩⟩
  have h1 := h.2.1
  simpa using h1

/-- The state strings recognized by `IsLoanActive` (its match cases). -/
def knownState (st : String) : Bool :=
  st == "PENDING" || st == "APPROVED" || st == "REJECTED" || st == "ACCEPTED" ||
  st == "SENT" || st == "REPAID" || st == "DEFAULTED" || st == "CANCELED"

/-- A record with an unrecognized state makes `IsLoanActive` fail. -/
lemma IsLoanActive_unknown {r : LoanRecord} (h : knownState r.state = false) :
    IsLoanActive r = .error "Invalid state value" := by
  unfold IsLoanActive
  split
  all_goals
    first
      | rfl
      | (rename_i heq
         rw [heq] at h
         exact absurd h (by decide))

/-- A history with two active records or an unrecognized state makes the
active-loan scan fail. -/
lemma ActiveLoan_error_of_bad {h : List LoanRecord}
    (hbad : 2 ≤ activeCount h ∨ ∃ r ∈ h, knownState r.state = false) :
    ∃ e, ActiveLoanForLoanHistory h = .error e := by
  cases hA : ActiveLoanForLoanHistory h with
  | error e => exact ⟨e, rfl⟩
  | ok res =>
    exfalso
    rcases hbad with hc | ⟨r, hr, hk⟩
    · have hcount := activeLoanAux_count h 0 none res hA
      unfold activeCount at hc
      cases res <;> simp only [optCount] at hcount <;> omega
    · obtain ⟨b, hval⟩ := activeLoanAux_valid h 0 none res hA r hr
      rw [IsLoanActive_unknown hk] at hval
      cases hval

/-- C10 (implicit): on a history with more than one active record or with
a state string outside the known enumeration, `ActiveLoanForLoanHistory`
errors, and every loan operation fails and leaves the datastore
unchanged; the legacy `ACCEPTED` state is classified active and
`REJECTED` inactive. -/
theorem C10_invalid_history_rejected (s : ServerState)
    (hbad : 2 ≤ activeCount s.loanHistory
          ∨ ∃ r ∈ s.loanHistory, knownState r.state = false) :
    (∃ e, ActiveLoanForLoanHistory s.loanHistory = .error e)
  ∧ (∀ (eras : List (ERA × String)) (uid : String) (req : LoanRequestInput)
       (now : ℤ), ∃ e, LoanRequestFun eras uid req now s = (.error e, s))
  ∧ (∀ now : ℤ, ∃ e, GetActiveLoan now s = (.error e, s))
  ∧ (∀ (req : LoanSelectInput) (now : ℤ), ∃ e, SelectLoanOffer req now s = (.error e, s))
  ∧ (∀ now : ℤ, ∃ e, Repay now s = (.error e, s))
  ∧ (∃ e, DeleteActiveLoan s = (.error e, s))
  ∧ (∀ now : ℤ, ∃ e, GetLoans now s = (.error e, s))
  ∧ (∀ r : LoanRecord, r.state = "ACCEPTED" → IsLoanActive r = .ok true)
  ∧ (∀ r : LoanRecord, r.state = "REJECTED" → IsLoanActive r = .ok false) := by
  obtain ⟨e, hA⟩ := ActiveLoan_error_of_bad hbad
  have hd : ∀ t : ℤ, DefaultActiveLoanIfNecessary t s.loanHistory = .error e := by
    intro t
    unfold DefaultActiveLoanIfNecessary
    rw [hA]
  refine ⟨⟨e, hA⟩, ?_, ?_, ?_, ?_, ?_, ?_, ?_, ?_⟩
  · intro eras uid req now
    unfold LoanRequestFun
    split
    · exact ⟨.badJsonPopulation, rfl⟩
    · split
      · exact ⟨.userDataNotFound, rfl⟩
      · exact ⟨.userDataNotFound, rfl⟩
      · simp only [hd (now * 1000)]
        exact ⟨.internal e, rfl⟩
  · intro now
    unfold GetActiveLoan
    simp only [hd (now * 1000)]
    exact ⟨.internal e, rfl⟩
  · intro req now
    unfold SelectLoanOffer
    split
    · exact ⟨.badJsonPopulation, rfl⟩
    · simp only [hA]
      exact ⟨.internal e, rfl⟩
  · intro now
    unfold Repay
    simp only [hA]
    exact ⟨.internal e, rfl⟩
  · unfold DeleteActiveLoan
    simp only [hA]
    exact ⟨.internal e, rfl⟩
  · intro now
    unfold GetLoans
    simp only [hd (now * 1000)]
    exact ⟨.internal e, rfl⟩
  · intro r hr
    simp [IsLoanActive, hr]
  · intro r hr
    simp [IsLoanActive, hr]

/-- Two simultaneously active (`PENDING`) records — a corrupted history. -/
def demoDoubleActiveState : ServerState :=
  ⟨demoUser, [demoPendingRecord, { demoPendingRecord with loanId := "u-1" }]⟩

theorem C10_witness :
    2 ≤ activeCount demoDoubleActiveState.loanHistory
  ∧ (∃ e, Repay 5 demoDoubleActiveState = (.error e, demoDoubleActiveState))
  ∧ (∃ e, DeleteActiveLoan demoDoubleActiveState = (.error e, demoDoubleActiveState)) := by
  have hb : 2 ≤ activeCount demoDoubleActiveState.loanHistory := by decide
  have h := C10_invalid_history_rejected demoDoubleActiveState (Or.inl hb)
  exact ⟨hb, h.2.2.2.2.1 5, h.2.2.2.2.2.1⟩
